import Mathlib

/-!
Verification of the PPR table-extraction core of
`.github/workflows/oppdater_ppr.py` (konjunktur-dashboard).

Python strings are modelled as `List Char`; an optional table cell
(pdfplumber yields `Optional[str]`) is `Option Str`.  Machinery below
mirrors, line by line, the class `PPRParser`: the five `_find_table_*`
scans, `_parse_monthly_table`, `_parse_quarterly_table`,
`_parse_annual_table`, and `parse`.  Python dicts keyed by strings are
modelled as association lists with in-place overwrite on an existing
key, which matches CPython insertion-order semantics.
-/

/-- A Python string, modelled as its list of characters. -/
abbrev Str := List Char

/-- ASCII whitespace as recognised by Python `str.strip()`. -/
def isWS (c : Char) : Bool :=
  c = ' ' || c = '\t' || c = '\n' || c = '\r' || c = '\x0b' || c = '\x0c'

/-- Python `s.strip()`: remove leading and trailing whitespace. -/
def pyStrip (l : Str) : Str :=
  List.rdropWhile isWS (l.dropWhile isWS)

/-- The character map underlying `s.replace(',', '.')`. -/
def commaToDot (c : Char) : Char :=
  if c = ',' then '.' else c

/-- Python `s.replace(',', '.')`: every comma becomes a dot. -/
def pyReplace (l : Str) : Str :=
  l.map commaToDot

/-- Python `str(x)` on an `Optional[str]`: `str(None)` is `"None"`. -/
def pyStr : Option Str → Str
  | none => "None".data
  | some s => s

/-- Python truthiness of an `Optional[str]`: `None` and the empty string are falsy. -/
def pyTruthy : Option Str → Bool
  | none => false
  | some s => !s.isEmpty

/-- The missing-value sentinel `'-'`. -/
def dash : Str := "-".data

/-- The literal token list from the source: dash, the empty string, `nan`, `None`. -/
def missingTokens : List Str :=
  ["-".data, "".data, "nan".data, "None".data]

/-- Lines 270-273: `val = str(cell).strip().replace(',', '.')` followed by
the membership test against `missingTokens` that rewrites `val` to the
dash sentinel, for a cell already known to be truthy (so `str(cell)` is
the cell string itself). -/
def normalizeVal (s : Str) : Str :=
  if pyReplace (pyStrip s) ∈ missingTokens then dash else pyReplace (pyStrip s)

/-- Lines 267-274 of `_parse_monthly_table`: the per-cell behaviour.
`if cell:` skips falsy cells (`None` and the empty string) entirely —
they yield no token; a truthy cell yields `normalizeVal` of its string. -/
def valueNormalizer (c : Option Str) : Option Str :=
  if pyTruthy c then some (normalizeVal (pyStr c)) else none

/-- Lines 316-319 of `_parse_annual_table`: same cell loop but with no
missing-token mapping at all. -/
def annualCell (c : Option Str) : Option Str :=
  if pyTruthy c then some (pyReplace (pyStrip (pyStr c))) else none

/-- A raw grid as returned by `page.extract_tables()`: rows of optional
cell strings. -/
abbrev RawGrid := List (List (Option Str))

/-- A page as consumed by the parser: `extract_text()` and
`extract_tables()` results. -/
structure Page where
  text : Str
  tables : List RawGrid

/-- A parsed table: Python dict from row label to value tokens. -/
abbrev ParsedTable := List (Str × List Str)

/-- A parsed document: Python dict from table id to parsed table
(`self.tables`). -/
abbrev ParsedDocument := List (Str × ParsedTable)

/-- Lookup in the association-list model of a Python dict. -/
def dlookup {α : Type} : List (Str × α) → Str → Option α
  | [], _ => none
  | (k2, v) :: t, k => if k2 = k then some v else dlookup t k

/-- Assignment `d[k] = v` on the association-list model of a Python
dict: overwrite in place when the key exists, else append. -/
def dictInsert {α : Type} : List (Str × α) → Str → α → List (Str × α)
  | [], k, v => [(k, v)]
  | (k2, v2) :: t, k, v =>
      if k2 = k then (k2, v) :: t else (k2, v2) :: dictInsert t k v

/-- The hard-coded row whitelist of `_parse_monthly_table` and
`_parse_quarterly_table`: the labels `Faktisk`, `Anslag PPR 3/25` and
`Anslag PPR 4/25`. -/
def whitelist : List Str :=
  ["Faktisk".data, "Anslag PPR 3/25".data, "Anslag PPR 4/25".data]

/-- The value loop of `_parse_monthly_table` over `row[1:]`. -/
def monthlyValues (cells : List (Option Str)) : List Str :=
  cells.filterMap valueNormalizer

/-- The value loop of `_parse_annual_table` over `row[1:]`. -/
def annualValues (cells : List (Option Str)) : List Str :=
  cells.filterMap annualCell

/-- One iteration of a row loop: rows shorter than 2 cells are skipped
(`if not row or len(row) < 2: continue`); otherwise the stripped first
cell is the label, kept when `keep` accepts it. -/
def rowFold (keep : Str → Bool) (valsOf : List (Option Str) → List Str)
    (acc : ParsedTable) (row : List (Option Str)) : ParsedTable :=
  match row with
  | c0 :: c1 :: rest =>
      let name := pyStrip (pyStr c0)
      if keep name then dictInsert acc name (valsOf (c1 :: rest)) else acc
  | _ => acc

/-- Model of `_parse_monthly_table(raw_table, table_id)`: iterate
`raw_table[1:]`, keep whitelisted labels.  (`table_id` and the
`header_row` binding are unused in the source body.) -/
def parseMonthlyTable (rawTable : RawGrid) (_tableId : Str) : ParsedTable :=
  (rawTable.drop 1).foldl (rowFold (fun n => decide (n ∈ whitelist)) monthlyValues) []

/-- Model of `_parse_quarterly_table(raw_table)`: identical row loop to
the monthly tables. -/
def parseQuarterlyTable (rawTable : RawGrid) : ParsedTable :=
  (rawTable.drop 1).foldl (rowFold (fun n => decide (n ∈ whitelist)) monthlyValues) []

/-- Model of `_parse_annual_table(raw_table)`: iterate `raw_table[1:]`,
keep every non-empty label, no missing-token mapping on cells. -/
def parseAnnualTable (rawTable : RawGrid) : ParsedTable :=
  (rawTable.drop 1).foldl (rowFold (fun n => !n.isEmpty) annualValues) []

/-- Python substring containment `needle in hay`: `needle` occurs as a
contiguous run somewhere in `hay`. -/
def strContains (needle : Str) : Str → Bool
  | [] => needle.isEmpty
  | c :: t => needle.isPrefixOf (c :: t) || strContains needle t

/-- Marker condition of `_find_table_2a`: the page text must contain
both `Tabell 2a` and `Konsumpriser`. -/
def marker2a (t : Str) : Bool :=
  strContains "Tabell 2a".data t && strContains "Konsumpriser".data t

/-- Marker condition of `_find_table_2b`. -/
def marker2b (t : Str) : Bool :=
  strContains "Tabell 2b".data t && strContains "Boligpriser".data t

/-- Marker condition of `_find_table_2c`. -/
def marker2c (t : Str) : Bool :=
  strContains "Tabell 2c".data t && strContains "ledighet".data t

/-- Marker condition of `_find_table_2d`. -/
def marker2d (t : Str) : Bool :=
  strContains "Tabell 2d".data t && strContains "BNP".data t

/-- Marker condition of `_find_table_3`: note the disjunction — the page
text contains `Tabell 3`, or it contains both `sentrale størrelser` and
`BNP Fastlands-Norge`. -/
def marker3 (t : Str) : Bool :=
  strContains "Tabell 3".data t ||
    (strContains "sentrale størrelser".data t && strContains "BNP Fastlands-Norge".data t)

/-- The locator aspect of every `_find_table_*` loop: index of the first
page whose text satisfies the marker condition. -/
def firstIdx (p : Str → Bool) : List Page → Option Nat
  | [] => none
  | pg :: ps => if p pg.text then some 0 else (firstIdx p ps).map (· + 1)

/-- Modelled from the spec (section 4.1, refinement reference only): the
locator contract — first page whose text contains *all* required marker
phrases as literal substrings. -/
def specLocateAllMarkers (markers : List Str) (pages : List Page) : Option Nat :=
  firstIdx (fun t => markers.all (fun m => strContains m t)) pages

/-- The shared shape of the five `_find_table_*` loops: scan pages; at
the first page whose text matches, take its first grid if any grids
exist, and stop the scan either way (the `break` is outside `if tables:`). -/
def findTableGeneric (marker : Str → Bool) (parseGrid : RawGrid → ParsedTable) :
    List Page → Option ParsedTable
  | [] => none
  | pg :: ps =>
      if marker pg.text then
        match pg.tables with
        | [] => none
        | g :: _ => some (parseGrid g)
      else findTableGeneric marker parseGrid ps

/-- Table id `2a`. -/
def t2aId : Str := "2a".data

/-- Model of `_find_table_2a`. -/
def findTable2a (pages : List Page) : Option ParsedTable :=
  findTableGeneric marker2a (fun g => parseMonthlyTable g t2aId) pages

/-- Model of `_find_table_2b`. -/
def findTable2b (pages : List Page) : Option ParsedTable :=
  findTableGeneric marker2b (fun g => parseMonthlyTable g "2b".data) pages

/-- Model of `_find_table_2c`. -/
def findTable2c (pages : List Page) : Option ParsedTable :=
  findTableGeneric marker2c (fun g => parseMonthlyTable g "2c".data) pages

/-- Model of `_find_table_2d`. -/
def findTable2d (pages : List Page) : Option ParsedTable :=
  findTableGeneric marker2d (fun g => parseQuarterlyTable g) pages

/-- Model of `_find_table_3`. -/
def findTable3 (pages : List Page) : Option ParsedTable :=
  findTableGeneric marker3 (fun g => parseAnnualTable g) pages

/-- Update `self.tables[id] = t` when a finder produced a table, else no
entry. -/
def addTable (d : ParsedDocument) (id : Str) : Option ParsedTable → ParsedDocument
  | none => d
  | some t => d ++ [(id, t)]

/-- Model of `PPRParser.parse`: run the five finders in source order,
collecting `self.tables`. -/
def pprParse (pages : List Page) : ParsedDocument :=
  addTable
    (addTable
      (addTable
        (addTable
          (addTable [] t2aId (findTable2a pages))
          "2b".data (findTable2b pages))
        "2c".data (findTable2c pages))
      "2d".data (findTable2d pages))
    "3".data (findTable3 pages)

/-- Error taxonomy of the spec; the source body of `parse` contains no
input-validation raise, so the embedding below never produces an error. -/
inductive ExtractError
  | invalidInput

/-- The function `parse` viewed as a fallible call: the source has no
error path of its own (it always returns `self.tables`), hence always
`Except.ok`. -/
def pprParseE (pages : List Page) : Except ExtractError ParsedDocument :=
  Except.ok (pprParse pages)

/-! ### Helper lemmas: character-level normalization -/

lemma commaToDot_ws (c : Char) : isWS (commaToDot c) = isWS c := by
  by_cases h : c = ','
  · subst h; decide
  · simp [commaToDot, h]

lemma commaToDot_idem (c : Char) : commaToDot (commaToDot c) = commaToDot c := by
  by_cases h : c = ','
  · subst h; decide
  · simp [commaToDot, h]

lemma commaToDot_ne_comma (c : Char) : commaToDot c ≠ ',' := by
  by_cases h : c = ','
  · subst h; decide
  · simp [commaToDot, h]

lemma pyReplace_idem (l : Str) : pyReplace (pyReplace l) = pyReplace l := by
  induction l with
  | nil => rfl
  | cons c t ih =>
      simp only [pyReplace, List.map_cons] at ih ⊢
      rw [commaToDot_idem]
      exact congrArg _ ih

lemma comma_notMem_pyReplace (l : Str) : ',' ∉ pyReplace l := by
  intro h
  rcases List.mem_map.mp h with ⟨c, _, hc⟩
  exact commaToDot_ne_comma c hc

lemma dropWhile_head_false {p : Char → Bool} :
    ∀ (l : Str) {a : Char} {t : Str}, List.dropWhile p l = a :: t → p a = false := by
  intro l
  induction l with
  | nil => intro a t h; simp [List.dropWhile] at h
  | cons b s ih =>
      intro a t h
      rw [List.dropWhile_cons] at h
      by_cases hb : p b = true
      · rw [if_pos hb] at h
        exact ih h
      · rw [if_neg hb] at h
        cases h
        simpa using hb

lemma pyStrip_idem (l : Str) : pyStrip (pyStrip l) = pyStrip l := by
  unfold pyStrip
  cases hz : List.rdropWhile isWS (List.dropWhile isWS l) with
  | nil => simp
  | cons a t =>
      have hpre : (a :: t) <+: List.dropWhile isWS l := hz ▸ List.rdropWhile_prefix isWS _
      obtain ⟨s, hs⟩ := hpre
      have hdw : List.dropWhile isWS l = a :: (t ++ s) := by
        rw [← hs]; rfl
      have ha : isWS a = false := dropWhile_head_false l hdw
      rw [List.dropWhile_cons, if_neg (by simp [ha])]
      rw [← hz]
      exact List.rdropWhile_idempotent _ _

lemma dropWhile_map_comm (f : Char → Char) (p : Char → Bool)
    (hf : ∀ c, p (f c) = p c) (l : Str) :
    List.dropWhile p (l.map f) = (List.dropWhile p l).map f := by
  rw [List.dropWhile_map]
  have hpf : (p ∘ f) = p := funext hf
  rw [hpf]

lemma rdropWhile_map_comm (f : Char → Char) (p : Char → Bool)
    (hf : ∀ c, p (f c) = p c) (l : Str) :
    List.rdropWhile p (l.map f) = (List.rdropWhile p l).map f := by
  unfold List.rdropWhile
  rw [← List.map_reverse, dropWhile_map_comm f p hf, List.map_reverse]

lemma pyStrip_pyReplace (l : Str) : pyStrip (pyReplace l) = pyReplace (pyStrip l) := by
  unfold pyStrip pyReplace
  rw [dropWhile_map_comm _ _ commaToDot_ws, rdropWhile_map_comm _ _ commaToDot_ws]

lemma monthlyValues_eq (cells : List (Option Str)) :
    monthlyValues cells = (cells.filter pyTruthy).map (fun c => normalizeVal (pyStr c)) := by
  induction cells with
  | nil => rfl
  | cons c t ih =>
      unfold monthlyValues at ih ⊢
      rw [List.filterMap_cons, List.filter_cons]
      cases hc : pyTruthy c
      · simp [valueNormalizer, hc, ih]
      · simp [valueNormalizer, hc, ih]

lemma annualValues_eq (cells : List (Option Str)) :
    annualValues cells = (cells.filter pyTruthy).map (fun c => pyReplace (pyStrip (pyStr c))) := by
  induction cells with
  | nil => rfl
  | cons c t ih =>
      unfold annualValues at ih ⊢
      rw [List.filterMap_cons, List.filter_cons]
      cases hc : pyTruthy c
      · simp [annualCell, hc, ih]
      · simp [annualCell, hc, ih]

/-! ### Helper lemmas: the dict model -/

lemma dlookup_dictInsert {α : Type} (d : List (Str × α)) (k n : Str) (v : α) :
    dlookup (dictInsert d k v) n = if k = n then some v else dlookup d n := by
  induction d with
  | nil => simp [dictInsert, dlookup]
  | cons hd tl ih =>
      obtain ⟨k2, v2⟩ := hd
      by_cases h2 : k2 = k
      · subst h2
        by_cases hn : k2 = n <;> simp [dictInsert, dlookup, hn]
      · by_cases hn : k2 = n
        · subst hn
          have hkn : ¬ k = k2 := fun he => h2 he.symm
          simp [dictInsert, dlookup, h2, hkn]
        · simp [dictInsert, dlookup, h2, hn, ih]

lemma mem_keys_dictInsert {α : Type} (d : List (Str × α)) (k n : Str) (v : α) :
    n ∈ (dictInsert d k v).map Prod.fst ↔ n ∈ d.map Prod.fst ∨ n = k := by
  induction d with
  | nil =>
      show n ∈ [k] ↔ n ∈ ([] : List Str) ∨ n = k
      simp only [List.mem_singleton, List.not_mem_nil, false_or]
  | cons hd tl ih =>
      obtain ⟨k2, v2⟩ := hd
      simp only [dictInsert]
      by_cases h2 : k2 = k
      · subst h2
        rw [if_pos rfl]
        simp only [List.map_cons, List.mem_cons]
        tauto
      · rw [if_neg h2]
        simp only [List.map_cons, List.mem_cons, ih]
        tauto

lemma nodup_keys_dictInsert {α : Type} (d : List (Str × α)) (k : Str) (v : α)
    (h : (d.map Prod.fst).Nodup) : ((dictInsert d k v).map Prod.fst).Nodup := by
  induction d with
  | nil =>
      show ([k] : List Str).Nodup
      exact List.nodup_singleton k
  | cons hd tl ih =>
      obtain ⟨k2, v2⟩ := hd
      simp only [List.map_cons, List.nodup_cons] at h
      obtain ⟨hk2, htl⟩ := h
      simp only [dictInsert]
      by_cases h2 : k2 = k
      · subst h2
        rw [if_pos rfl]
        simp only [List.map_cons, List.nodup_cons]
        exact ⟨hk2, htl⟩
      · rw [if_neg h2]
        simp only [List.map_cons, List.nodup_cons]
        refine ⟨?_, ih htl⟩
        rw [mem_keys_dictInsert]
        rintro (hmem | heq)
        · exact hk2 hmem
        · exact h2 heq

lemma dlookup_isSome_iff_mem_keys {α : Type} (d : List (Str × α)) (n : Str) :
    (dlookup d n).isSome = true ↔ n ∈ d.map Prod.fst := by
  induction d with
  | nil =>
      constructor
      · intro h
        exact absurd h Bool.false_ne_true
      · intro h
        exact absurd h (List.not_mem_nil n)
  | cons hd tl ih =>
      obtain ⟨k2, v2⟩ := hd
      simp only [dlookup]
      by_cases h2 : k2 = n
      · subst h2
        rw [if_pos rfl]
        simp only [Option.isSome_some, List.map_cons, List.mem_cons]
        tauto
      · rw [if_neg h2]
        have h2n : ¬ n = k2 := fun he => h2 he.symm
        simp only [ih, List.map_cons, List.mem_cons]
        tauto

/-! ### Helper lemmas: the row-selection fold -/

lemma rowFold_lookup_isSome (keep : Str → Bool) (f : List (Option Str) → List Str)
    (acc : ParsedTable) (row : List (Option Str)) (n : Str)
    (h : (dlookup acc n).isSome = true) :
    (dlookup (rowFold keep f acc row) n).isSome = true := by
  match row with
  | [] => exact h
  | [c0] => exact h
  | c0 :: c1 :: rest =>
      by_cases hk : keep (pyStrip (pyStr c0)) = true
      · simp only [rowFold, hk, if_pos]
        rw [dlookup_dictInsert]
        by_cases he : pyStrip (pyStr c0) = n <;> simp [he, h]
      · simpa [rowFold, hk] using h

lemma foldl_lookup_isSome (keep : Str → Bool) (f : List (Option Str) → List Str) :
    ∀ (rows : List (List (Option Str))) (acc : ParsedTable) (n : Str),
      (dlookup acc n).isSome = true →
      (dlookup (rows.foldl (rowFold keep f) acc) n).isSome = true := by
  intro rows
  induction rows with
  | nil => intro acc n h; exact h
  | cons r rs ih =>
      intro acc n h
      exact ih _ _ (rowFold_lookup_isSome _ _ _ _ _ h)

lemma foldl_present (keep : Str → Bool) (f : List (Option Str) → List Str) :
    ∀ (rows : List (List (Option Str))) (acc : ParsedTable)
      (c0 c1 : Option Str) (rest : List (Option Str)),
      (c0 :: c1 :: rest) ∈ rows → keep (pyStrip (pyStr c0)) = true →
      (dlookup (rows.foldl (rowFold keep f) acc) (pyStrip (pyStr c0))).isSome = true := by
  intro rows
  induction rows with
  | nil => intro acc c0 c1 rest h; cases h
  | cons r rs ih =>
      intro acc c0 c1 rest hmem hk
      rcases List.mem_cons.mp hmem with heq | hmem2
      · subst heq
        rw [List.foldl_cons]
        apply foldl_lookup_isSome
        rw [show rowFold keep f acc (c0 :: c1 :: rest) =
              dictInsert acc (pyStrip (pyStr c0)) (f (c1 :: rest)) by simp [rowFold, hk]]
        rw [dlookup_dictInsert, if_pos rfl]
        rfl
      · exact ih _ _ _ _ hmem2 hk

lemma foldl_origin (keep : Str → Bool) (f : List (Option Str) → List Str) :
    ∀ (rows : List (List (Option Str))) (acc : ParsedTable) (n : Str) (vs : List Str),
      dlookup (rows.foldl (rowFold keep f) acc) n = some vs →
      dlookup acc n = some vs ∨
        ∃ c0 c1 rest, (c0 :: c1 :: rest) ∈ rows ∧ pyStrip (pyStr c0) = n ∧
          keep n = true ∧ vs = f (c1 :: rest) := by
  intro rows
  induction rows with
  | nil => intro acc n vs h; exact Or.inl h
  | cons r rs ih =>
      intro acc n vs h
      rcases ih _ _ _ h with h1 | ⟨c0, c1, rest, hm, hn, hk, hv⟩
      · match r with
        | [] => exact Or.inl h1
        | [c0] => exact Or.inl h1
        | c0 :: c1 :: rest =>
            by_cases hk : keep (pyStrip (pyStr c0)) = true
            · rw [show rowFold keep f acc (c0 :: c1 :: rest) =
                    dictInsert acc (pyStrip (pyStr c0)) (f (c1 :: rest)) by simp [rowFold, hk]] at h1
              rw [dlookup_dictInsert] at h1
              by_cases he : pyStrip (pyStr c0) = n
              · rw [if_pos he] at h1
                injection h1 with h1v
                exact Or.inr ⟨c0, c1, rest, List.mem_cons_self _ _, he, he ▸ hk, h1v.symm⟩
              · rw [if_neg he] at h1
                exact Or.inl h1
            · rw [show rowFold keep f acc (c0 :: c1 :: rest) = acc by simp [rowFold, hk]] at h1
              exact Or.inl h1
      · exact Or.inr ⟨c0, c1, rest, List.mem_cons_of_mem _ hm, hn, hk, hv⟩

lemma rowFold_nodup_keys (keep : Str → Bool) (f : List (Option Str) → List Str)
    (acc : ParsedTable) (row : List (Option Str))
    (h : (acc.map Prod.fst).Nodup) :
    ((rowFold keep f acc row).map Prod.fst).Nodup := by
  match row with
  | [] => exact h
  | [c0] => exact h
  | c0 :: c1 :: rest =>
      by_cases hk : keep (pyStrip (pyStr c0)) = true
      · simp only [rowFold, hk, if_pos]
        exact nodup_keys_dictInsert _ _ _ h
      · simpa [rowFold, hk] using h

lemma foldl_nodup_keys (keep : Str → Bool) (f : List (Option Str) → List Str) :
    ∀ (rows : List (List (Option Str))) (acc : ParsedTable),
      (acc.map Prod.fst).Nodup →
      (((rows.foldl (rowFold keep f) acc)).map Prod.fst).Nodup := by
  intro rows
  induction rows with
  | nil => intro acc h; exact h
  | cons r rs ih =>
      intro acc h
      exact ih _ (rowFold_nodup_keys _ _ _ _ h)

/-! ### Helper lemmas: page scanning and the orchestrator -/

lemma findTableGeneric_append_no_match (marker : Str → Bool)
    (parseGrid : RawGrid → ParsedTable) :
    ∀ (pre rest : List Page), (∀ q ∈ pre, marker q.text = false) →
      findTableGeneric marker parseGrid (pre ++ rest) =
        findTableGeneric marker parseGrid rest := by
  intro pre
  induction pre with
  | nil => intro rest _; rfl
  | cons q qs ih =>
      intro rest h
      have hq : marker q.text = false := h q (List.mem_cons_self _ _)
      simp only [List.cons_append, findTableGeneric, hq]
      simp only [Bool.false_eq_true, if_false]
      exact ih rest (fun x hx => h x (List.mem_cons_of_mem _ hx))

lemma findTable_stops (marker : Str → Bool) (parseGrid : RawGrid → ParsedTable)
    (pre : List Page) (pg : Page) (post : List Page)
    (hpre : ∀ q ∈ pre, marker q.text = false)
    (hpg : marker pg.text = true) (htab : pg.tables = []) :
    findTableGeneric marker parseGrid (pre ++ pg :: post) = none := by
  rw [findTableGeneric_append_no_match marker parseGrid pre (pg :: post) hpre]
  simp only [findTableGeneric, hpg, if_true, htab]

lemma findTableGeneric_none (marker : Str → Bool) (parseGrid : RawGrid → ParsedTable) :
    ∀ (pages : List Page), (∀ pg ∈ pages, marker pg.text = false) →
      findTableGeneric marker parseGrid pages = none := by
  intro pages
  induction pages with
  | nil => intro _; rfl
  | cons pg ps ih =>
      intro h
      have hpg : marker pg.text = false := h pg (List.mem_cons_self _ _)
      simp only [findTableGeneric, hpg, Bool.false_eq_true, if_false]
      exact ih (fun x hx => h x (List.mem_cons_of_mem _ hx))

lemma firstIdx_eq_some_iff (p : Str → Bool) :
    ∀ (pages : List Page) (i : Nat),
      firstIdx p pages = some i ↔
        (∃ pg, pages.get? i = some pg ∧ p pg.text = true) ∧
          (∀ j q, j < i → pages.get? j = some q → p q.text = false) := by
  intro pages
  induction pages with
  | nil =>
      intro i
      simp [firstIdx]
  | cons pg ps ih =>
      intro i
      by_cases hp : p pg.text = true
      · simp only [firstIdx, hp, if_true]
        cases i with
        | zero =>
            simp only [List.get?]
            constructor
            · intro _
              exact ⟨⟨pg, rfl, hp⟩, fun j q hj _ => absurd hj (Nat.not_lt_zero j)⟩
            · intro _
              trivial
        | succ k =>
            constructor
            · intro h
              exact absurd (Option.some.inj h) (by omega)
            · rintro ⟨_, hall⟩
              have := hall 0 pg (Nat.succ_pos k) rfl
              rw [hp] at this
              exact absurd this (by simp)
      · have hpf : p pg.text = false := by
          cases hpt : p pg.text
          · rfl
          · exact absurd hpt hp
        simp only [firstIdx, hpf, Bool.false_eq_true, if_false]
        cases i with
        | zero =>
            constructor
            · intro h
              rcases Option.map_eq_some'.mp h with ⟨a, _, ha⟩
              exact absurd ha (by omega)
            · rintro ⟨⟨pg2, hg, hpt⟩, _⟩
              rw [show pg2 = pg from Option.some.inj hg.symm ▸ rfl] at hpt
              · rw [hpt] at hpf
                exact absurd hpf (by simp)
        | succ k =>
            constructor
            · intro h
              rcases Option.map_eq_some'.mp h with ⟨a, ha, hak⟩
              have hak2 : a = k := by omega
              rw [hak2] at ha
              obtain ⟨hex, hall⟩ := (ih k).mp ha
              refine ⟨?_, ?_⟩
              · obtain ⟨pg2, hg, hpt⟩ := hex
                exact ⟨pg2, by simpa using hg, hpt⟩
              · intro j q hj hq
                cases j with
                | zero =>
                    rw [show q = pg from Option.some.inj hq.symm ▸ rfl]
                    exact hpf
                | succ j2 =>
                    exact hall j2 q (by omega) (by simpa using hq)
            · rintro ⟨⟨pg2, hg, hpt⟩, hall⟩
              have hps : firstIdx p ps = some k := by
                refine (ih k).mpr ⟨⟨pg2, by simpa using hg, hpt⟩, ?_⟩
                intro j q hj hq
                exact hall (j + 1) q (by omega) (by simpa using hq)
              rw [hps]
              rfl

lemma firstIdx_eq_none_iff (p : Str → Bool) :
    ∀ (pages : List Page),
      firstIdx p pages = none ↔ ∀ pg ∈ pages, p pg.text = false := by
  intro pages
  induction pages with
  | nil => simp [firstIdx]
  | cons pg ps ih =>
      by_cases hp : p pg.text = true
      · simp only [firstIdx, hp, if_true]
        constructor
        · intro h
          exact absurd h (by simp)
        · intro h
          rw [h pg (List.mem_cons_self _ _)] at hp
          exact absurd hp (by simp)
      · have hpf : p pg.text = false := by
          cases hpt : p pg.text
          · rfl
          · exact absurd hpt hp
        simp only [firstIdx, hpf, Bool.false_eq_true, if_false, Option.map_eq_none']
        rw [ih]
        constructor
        · intro h q hq
          rcases List.mem_cons.mp hq with rfl | hq2
          · exact hpf
          · exact h q hq2
        · intro h q hq
          exact h q (List.mem_cons_of_mem _ hq)

lemma firstIdx_congr (p q : Str → Bool) (h : ∀ t, p t = q t) (pages : List Page) :
    firstIdx p pages = firstIdx q pages := by
  have hpq : p = q := funext h
  rw [hpq]

lemma marker2a_eq_all (t : Str) :
    marker2a t = ["Tabell 2a".data, "Konsumpriser".data].all (fun m => strContains m t) := by
  simp [marker2a, List.all_cons, List.all_nil]

lemma marker2b_eq_all (t : Str) :
    marker2b t = ["Tabell 2b".data, "Boligpriser".data].all (fun m => strContains m t) := by
  simp [marker2b, List.all_cons, List.all_nil]

lemma marker2c_eq_all (t : Str) :
    marker2c t = ["Tabell 2c".data, "ledighet".data].all (fun m => strContains m t) := by
  simp [marker2c, List.all_cons, List.all_nil]

lemma marker2d_eq_all (t : Str) :
    marker2d t = ["Tabell 2d".data, "BNP".data].all (fun m => strContains m t) := by
  simp [marker2d, List.all_cons, List.all_nil]

lemma dlookup_append_single (d : ParsedDocument) (id k : Str) (t : ParsedTable)
    (h : id ≠ k) : dlookup (d ++ [(id, t)]) k = dlookup d k := by
  induction d with
  | nil =>
      simp only [List.nil_append, dlookup]
      rw [if_neg h]
  | cons hd tl ih =>
      obtain ⟨k2, v2⟩ := hd
      simp only [List.cons_append, dlookup]
      by_cases h2 : k2 = k
      · rw [if_pos h2, if_pos h2]
      · rw [if_neg h2, if_neg h2]
        exact ih

lemma dlookup_addTable_ne (d : ParsedDocument) (id k : Str) (r : Option ParsedTable)
    (h : id ≠ k) : dlookup (addTable d id r) k = dlookup d k := by
  cases r with
  | none => rfl
  | some t => exact dlookup_append_single d id k t h

lemma count_keys_one (l : List Str) (n : Str) (hnd : l.Nodup) (hmem : n ∈ l) :
    l.count n = 1 := by
  induction l with
  | nil => cases hmem
  | cons a t ih =>
      rw [List.nodup_cons] at hnd
      obtain ⟨ha, ht⟩ := hnd
      rcases List.mem_cons.mp hmem with rfl | hm2
      · have hz : t.count n = 0 := List.count_eq_zero.mpr ha
        rw [List.count_cons_self, hz]
      · have hne : n ≠ a := fun he => ha (he ▸ hm2)
        rw [List.count_cons_of_ne hne]
        exact ih ht hm2


/-! ## The claims -/

/-- C1, counterexample.  The claim says a null/absent or blank cell is
mapped to the sentinel, leaving a sentinel entry at that position.  On
the grid below the whitelisted row has two data cells (a null and
`2,1`), yet the parsed value sequence is the single token `2.1`: the
null cell was omitted outright and no sentinel appears. -/
theorem claim_C1_counterexample :
    dlookup (parseMonthlyTable
        [[some "h".data], [some "Faktisk".data, none, some "2,1".data]] t2aId)
      "Faktisk".data = some ["2.1".data]
    ∧ dash ∉ ["2.1".data] := by
  decide

/-- C1, amended.  `if cell:` omits null and empty cells from the value
sequence entirely, with no sentinel at their position; only truthy cells
contribute values, each normalized, in source order.  A whitespace-only
cell (truthy) still normalizes to the sentinel. -/
theorem claim_C1 :
    (∀ cells : List (Option Str),
        monthlyValues cells =
          (cells.filter pyTruthy).map (fun c => normalizeVal (pyStr c)))
    ∧ valueNormalizer none = none
    ∧ valueNormalizer (some " ".data) = some dash :=
  ⟨monthlyValues_eq, rfl, by decide⟩

/-- C2, counterexample.  Two retained rows of the same 3-column grid get
value sequences of lengths 1 and 2: not the equal length (column count
minus one, here 2) the claim requires — a null cell was dropped rather
than kept as a sentinel. -/
theorem claim_C2_counterexample :
    (dlookup (parseMonthlyTable
        [[some "h".data, some "a".data, some "b".data],
         [some "Faktisk".data, none, some "1".data],
         [some "Anslag PPR 3/25".data, some "1".data, some "2".data]] t2aId)
      "Faktisk".data).map List.length = some 1
    ∧ (dlookup (parseMonthlyTable
        [[some "h".data, some "a".data, some "b".data],
         [some "Faktisk".data, none, some "1".data],
         [some "Anslag PPR 3/25".data, some "1".data, some "2".data]] t2aId)
      "Anslag PPR 3/25".data).map List.length = some 2 := by
  decide

/-- C2, amended.  Rows shorter than 2 cells are skipped wholesale (an
entry can only come from a row of shape `c0 :: c1 :: rest` below the
header), and the value-sequence length of each retained entry equals the
number of truthy cells after the label of the originating row — a count
that may differ between rows of the same grid. -/
theorem claim_C2 (grid : RawGrid) (tid name : Str) (vs : List Str)
    (h : dlookup (parseMonthlyTable grid tid) name = some vs) :
    ∃ c0 c1 rest, (c0 :: c1 :: rest) ∈ grid.drop 1 ∧ pyStrip (pyStr c0) = name ∧
      name ∈ whitelist ∧ vs = monthlyValues (c1 :: rest) ∧
      vs.length = (c1 :: rest).countP pyTruthy := by
  unfold parseMonthlyTable at h
  rcases foldl_origin _ _ _ _ _ _ h with h1 | ⟨c0, c1, rest, hm, hn, hk, hv⟩
  · simp [dlookup] at h1
  · refine ⟨c0, c1, rest, hm, hn, of_decide_eq_true hk, hv, ?_⟩
    rw [hv, monthlyValues_eq, List.length_map, List.countP_eq_length_filter]

/-- C2, witness for the amended theorem at a concrete grid. -/
theorem claim_C2_witness :
    ∃ c0 c1 rest,
      (c0 :: c1 :: rest) ∈
        ([[some "h".data], [some "Faktisk".data, some "1".data]] : RawGrid).drop 1 ∧
      pyStrip (pyStr c0) = "Faktisk".data ∧ "Faktisk".data ∈ whitelist ∧
      ["1".data] = monthlyValues (c1 :: rest) ∧
      (["1".data] : List Str).length = (c1 :: rest).countP pyTruthy :=
  claim_C2 [[some "h".data], [some "Faktisk".data, some "1".data]] t2aId
    "Faktisk".data ["1".data] (by decide)

/-- C3, counterexample.  Taking the three phrases named by the table-3
scan as its required markers, a one-page document whose text is exactly
`Tabell 3` contains only a proper subset of them, so the claimed
all-markers locator reports not found — but the code selects page 0.
Symmetrically for a page carrying the other two phrases without
`Tabell 3`. -/
theorem claim_C3_counterexample :
    firstIdx marker3 [⟨"Tabell 3".data, []⟩] = some 0
    ∧ specLocateAllMarkers
        ["Tabell 3".data, "sentrale størrelser".data, "BNP Fastlands-Norge".data]
        [⟨"Tabell 3".data, []⟩] = none
    ∧ firstIdx marker3
        [⟨"Anslag på sentrale størrelser: BNP Fastlands-Norge med mer".data, []⟩] = some 0
    ∧ specLocateAllMarkers
        ["Tabell 3".data, "sentrale størrelser".data, "BNP Fastlands-Norge".data]
        [⟨"Anslag på sentrale størrelser: BNP Fastlands-Norge med mer".data, []⟩] = none := by
  decide

/-- C3, amended.  The scans for tables 2a-2d match exactly the spec
all-markers locator over their two phrases (lowest-index semantics and
not-found included, via the equalities).  The table-3 scan instead
selects the lowest-indexed page satisfying its disjunctive condition
(`Tabell 3` present, or both `sentrale størrelser` and
`BNP Fastlands-Norge` present), and reports not found only when no
page satisfies that disjunction. -/
theorem claim_C3 :
    (∀ pages, firstIdx marker2a pages =
        specLocateAllMarkers ["Tabell 2a".data, "Konsumpriser".data] pages)
    ∧ (∀ pages, firstIdx marker2b pages =
        specLocateAllMarkers ["Tabell 2b".data, "Boligpriser".data] pages)
    ∧ (∀ pages, firstIdx marker2c pages =
        specLocateAllMarkers ["Tabell 2c".data, "ledighet".data] pages)
    ∧ (∀ pages, firstIdx marker2d pages =
        specLocateAllMarkers ["Tabell 2d".data, "BNP".data] pages)
    ∧ (∀ pages i, firstIdx marker3 pages = some i ↔
        (∃ pg, pages.get? i = some pg ∧ marker3 pg.text = true) ∧
          (∀ j q, j < i → pages.get? j = some q → marker3 q.text = false))
    ∧ (∀ pages, firstIdx marker3 pages = none ↔
        ∀ pg ∈ pages, marker3 pg.text = false) := by
  refine ⟨?_, ?_, ?_, ?_, ?_, ?_⟩
  · intro pages
    exact firstIdx_congr _ _ marker2a_eq_all pages
  · intro pages
    exact firstIdx_congr _ _ marker2b_eq_all pages
  · intro pages
    exact firstIdx_congr _ _ marker2c_eq_all pages
  · intro pages
    exact firstIdx_congr _ _ marker2d_eq_all pages
  · intro pages i
    exact firstIdx_eq_some_iff marker3 pages i
  · intro pages
    exact firstIdx_eq_none_iff marker3 pages

/-- C3, witness for the amended theorem on a concrete document. -/
theorem claim_C3_witness :
    firstIdx marker2a [⟨"Tabell 2a om Konsumpriser".data, []⟩] =
      specLocateAllMarkers ["Tabell 2a".data, "Konsumpriser".data]
        [⟨"Tabell 2a om Konsumpriser".data, []⟩] :=
  claim_C3.1 [⟨"Tabell 2a om Konsumpriser".data, []⟩]

/-- C4, counterexample.  A grid whose first row is whitelisted with 3
columns: the claim says it is included, but the row loop starts at
`raw_table[1:]`, so the parse result is empty. -/
theorem claim_C4_counterexample :
    parseMonthlyTable [[some "Faktisk".data, some "1".data, some "2".data]] t2aId = []
    ∧ dlookup
        (parseMonthlyTable [[some "Faktisk".data, some "1".data, some "2".data]] t2aId)
        "Faktisk".data = none := by
  decide

/-- C4, amended.  Labels outside the whitelist never appear in the
parsed table; and every row after the first (header) row with at least
2 columns and a whitelisted trimmed label yields an entry under that
label, exactly once. -/
theorem claim_C4 :
    (∀ (grid : RawGrid) (tid name : Str), name ∉ whitelist →
        dlookup (parseMonthlyTable grid tid) name = none)
    ∧ (∀ (grid : RawGrid) (tid : Str) (c0 c1 : Option Str) (rest : List (Option Str)),
        (c0 :: c1 :: rest) ∈ grid.drop 1 → pyStrip (pyStr c0) ∈ whitelist →
          (dlookup (parseMonthlyTable grid tid) (pyStrip (pyStr c0))).isSome = true
          ∧ ((parseMonthlyTable grid tid).map Prod.fst).count (pyStrip (pyStr c0)) = 1) := by
  constructor
  · intro grid tid name hnw
    cases hl : dlookup (parseMonthlyTable grid tid) name with
    | none => rfl
    | some vs =>
        unfold parseMonthlyTable at hl
        rcases foldl_origin _ _ _ _ _ _ hl with h1 | ⟨_, _, _, _, _, hk, _⟩
        · simp [dlookup] at h1
        · exact absurd (of_decide_eq_true hk) hnw
  · intro grid tid c0 c1 rest hmem hw
    have hsome :
        (dlookup (parseMonthlyTable grid tid) (pyStrip (pyStr c0))).isSome = true := by
      unfold parseMonthlyTable
      exact foldl_present _ _ _ _ _ _ _ hmem (decide_eq_true hw)
    refine ⟨hsome, ?_⟩
    have hnd : ((parseMonthlyTable grid tid).map Prod.fst).Nodup := by
      unfold parseMonthlyTable
      exact foldl_nodup_keys _ _ _ _ List.nodup_nil
    exact count_keys_one _ _ hnd ((dlookup_isSome_iff_mem_keys _ _).mp hsome)

/-- C4, witness for the amended theorem at a concrete grid. -/
theorem claim_C4_witness :
    ((dlookup (parseMonthlyTable [[some "h".data], [some "Faktisk".data, some "1".data]] t2aId)
        (pyStrip (pyStr (some "Faktisk".data)))).isSome = true
      ∧ ((parseMonthlyTable [[some "h".data], [some "Faktisk".data, some "1".data]] t2aId).map
          Prod.fst).count (pyStrip (pyStr (some "Faktisk".data))) = 1)
    ∧ dlookup (parseMonthlyTable [[some "h".data], [some "Faktisk".data, some "1".data]] t2aId)
        "Ukjent rad".data = none :=
  ⟨claim_C4.2 [[some "h".data], [some "Faktisk".data, some "1".data]] t2aId
      (some "Faktisk".data) (some "1".data) [] (by decide) (by decide),
   claim_C4.1 [[some "h".data], [some "Faktisk".data, some "1".data]] t2aId
      "Ukjent rad".data (by decide)⟩

/-- C5, counterexample.  Under accept-all, a single-row grid whose row
has a non-empty label and 3 columns: the claim says the first row is
kept when it qualifies, but the loop starts at `raw_table[1:]`, so the
result is empty. -/
theorem claim_C5_counterexample :
    parseAnnualTable [[some "KPI".data, some "3,5".data, some "2,8".data]] = []
    ∧ dlookup (parseAnnualTable [[some "KPI".data, some "3,5".data, some "2,8".data]])
        "KPI".data = none := by
  decide

/-- C5, amended.  Under accept-all, every row after the first (header)
row with a non-empty trimmed label and at least 2 columns yields an
entry; the first row of the grid is always skipped as a header. -/
theorem claim_C5 (grid : RawGrid) (c0 c1 : Option Str) (rest : List (Option Str))
    (hmem : (c0 :: c1 :: rest) ∈ grid.drop 1)
    (hne : pyStrip (pyStr c0) ≠ []) :
    (dlookup (parseAnnualTable grid) (pyStrip (pyStr c0))).isSome = true := by
  unfold parseAnnualTable
  apply foldl_present _ _ _ _ _ _ _ hmem
  have hemp : (pyStrip (pyStr c0)).isEmpty = false := by
    cases hcase : pyStrip (pyStr c0) with
    | nil => exact absurd hcase hne
    | cons a t => rfl
  rw [hemp]
  rfl

/-- C5, witness for the amended theorem at a concrete grid. -/
theorem claim_C5_witness :
    (dlookup (parseAnnualTable [[some "h".data], [some "KPI".data, some "3,5".data]])
        (pyStrip (pyStr (some "KPI".data)))).isSome = true :=
  claim_C5 [[some "h".data], [some "KPI".data, some "3,5".data]]
    (some "KPI".data) (some "3,5".data) [] (by decide) (by decide)

/-- C6, counterexample.  `parse` on an empty page sequence returns an
empty parsed document; it does not raise: the source body contains no
input validation at all. -/
theorem claim_C6_counterexample :
    pprParseE [] = Except.ok []
    ∧ pprParseE [] ≠ Except.error ExtractError.invalidInput := by
  constructor
  · rfl
  · intro h
    exact Except.noConfusion h

/-- C6, amended.  `extract` on an empty Pages sequence returns an empty
ParsedDocument without error — exactly as on a non-empty sequence where
no markers of any spec match. -/
theorem claim_C6 :
    pprParseE [] = Except.ok []
    ∧ ∀ pages : List Page,
        (∀ pg ∈ pages, marker2a pg.text = false ∧ marker2b pg.text = false ∧
          marker2c pg.text = false ∧ marker2d pg.text = false ∧ marker3 pg.text = false) →
        pprParseE pages = Except.ok [] := by
  constructor
  · rfl
  · intro pages h
    unfold pprParseE pprParse findTable2a findTable2b findTable2c findTable2d findTable3
    rw [findTableGeneric_none _ _ pages (fun pg hm => (h pg hm).1),
        findTableGeneric_none _ _ pages (fun pg hm => (h pg hm).2.1),
        findTableGeneric_none _ _ pages (fun pg hm => (h pg hm).2.2.1),
        findTableGeneric_none _ _ pages (fun pg hm => (h pg hm).2.2.2.1),
        findTableGeneric_none _ _ pages (fun pg hm => (h pg hm).2.2.2.2)]
    rfl

/-- C6, witness for the amended theorem on a concrete marker-free page. -/
theorem claim_C6_witness :
    pprParseE [⟨"hei verden".data, [[[some "x".data]]]⟩] = Except.ok [] :=
  claim_C6.2 [⟨"hei verden".data, [[[some "x".data]]]⟩] (by decide)

/-- C7, counterexample.  The no-data comparison is case-sensitive: a
monthly cell holding NaN amid spaces normalizes to the token `NaN`, not
the sentinel.  And the annual table applies no no-data mapping at all:
the token `nan` is kept verbatim. -/
theorem claim_C7_counterexample :
    dlookup (parseMonthlyTable
        [[some "h".data], [some "Faktisk".data, some " NaN ".data]] t2aId)
      "Faktisk".data = some ["NaN".data]
    ∧ "NaN".data ≠ dash
    ∧ dlookup (parseAnnualTable [[some "h".data], [some "KPI".data, some "nan".data]])
        "KPI".data = some ["nan".data]
    ∧ "nan".data ≠ dash := by
  decide

/-- C7, amended.  In the monthly/quarterly tables a trimmed,
comma-replaced cell becomes the sentinel exactly when it is one of the
four tokens dash, empty, `nan`, `None` — a case-sensitive comparison;
the annual table performs no sentinel mapping on cells at all. -/
theorem claim_C7 :
    (∀ s : Str, normalizeVal s = dash ↔ pyReplace (pyStrip s) ∈ missingTokens)
    ∧ (∀ cells : List (Option Str),
        annualValues cells =
          (cells.filter pyTruthy).map (fun c => pyReplace (pyStrip (pyStr c)))) := by
  constructor
  · intro s
    unfold normalizeVal
    by_cases h : pyReplace (pyStrip s) ∈ missingTokens
    · rw [if_pos h]
      exact ⟨fun _ => h, fun _ => rfl⟩
    · rw [if_neg h]
      constructor
      · intro he
        rw [he] at h
        exact absurd (by decide : dash ∈ missingTokens) h
      · intro hmem
        exact absurd hmem h
  · exact annualValues_eq

/-- C7, witness for the amended theorem at a concrete token. -/
theorem claim_C7_witness : normalizeVal " nan ".data = dash :=
  (claim_C7.1 " nan ".data).mpr (by decide)

/-- C8, counterexample.  The per-cell normalizer yields no token at all
for a null cell (the cell is omitted), rather than returning the
sentinel as the claim states. -/
theorem claim_C8_counterexample :
    valueNormalizer none = none ∧ (none : Option Str) ≠ some dash := by
  constructor
  · rfl
  · intro h
    exact Option.noConfusion h

/-- C8, amended.  The per-cell normalizer is a total function; a null or
empty cell yields no token, and every token it does emit is either the
sentinel or a string containing no comma. -/
theorem claim_C8 (c : Option Str) (v : Str) (h : valueNormalizer c = some v) :
    v = dash ∨ ',' ∉ v := by
  unfold valueNormalizer at h
  by_cases hc : pyTruthy c = true
  · rw [if_pos hc] at h
    have hv : normalizeVal (pyStr c) = v := Option.some.inj h
    subst hv
    unfold normalizeVal
    by_cases ht : pyReplace (pyStrip (pyStr c)) ∈ missingTokens
    · rw [if_pos ht]
      exact Or.inl rfl
    · rw [if_neg ht]
      exact Or.inr (comma_notMem_pyReplace _)
  · rw [if_neg hc] at h
    exact Option.noConfusion h

/-- C8, witness for the amended theorem at a concrete cell. -/
theorem claim_C8_witness : "2.1".data = dash ∨ ',' ∉ "2.1".data :=
  claim_C8 (some " 2,1 ".data) "2.1".data (by decide)

/-- C9 (confirmed).  The value normalization — trim, comma-to-point,
missing-marker mapping — is idempotent: applying it to its own output
returns that output unchanged, for every input string. -/
theorem claim_C9 (s : Str) : normalizeVal (normalizeVal s) = normalizeVal s := by
  unfold normalizeVal
  by_cases h : pyReplace (pyStrip s) ∈ missingTokens
  · rw [if_pos h]
    decide
  · rw [if_neg h]
    have h1 : pyStrip (pyReplace (pyStrip s)) = pyReplace (pyStrip s) := by
      rw [pyStrip_pyReplace, pyStrip_idem]
    rw [h1, pyReplace_idem, if_neg h]

/-- C10 (confirmed).  If the first page whose text satisfies the marker
condition of a table exposes zero grids, the scan stops there: the finder
returns none whatever the later pages hold (the free `post` covers pages
that match and do contain grids), no error arises, and — shown for
table 2a through the orchestrator — the table id is absent from the
output. -/
theorem claim_C10 :
    (∀ (marker : Str → Bool) (parseGrid : RawGrid → ParsedTable)
        (pre : List Page) (pg : Page) (post : List Page),
        (∀ q ∈ pre, marker q.text = false) → marker pg.text = true → pg.tables = [] →
        findTableGeneric marker parseGrid (pre ++ pg :: post) = none)
    ∧ (∀ (pre : List Page) (pg : Page) (post : List Page),
        (∀ q ∈ pre, marker2a q.text = false) → marker2a pg.text = true → pg.tables = [] →
        dlookup (pprParse (pre ++ pg :: post)) t2aId = none) := by
  constructor
  · intro marker parseGrid pre pg post h1 h2 h3
    exact findTable_stops marker parseGrid pre pg post h1 h2 h3
  · intro pre pg post h1 h2 h3
    have hf : findTable2a (pre ++ pg :: post) = none := by
      unfold findTable2a
      exact findTable_stops _ _ pre pg post h1 h2 h3
    unfold pprParse
    rw [dlookup_addTable_ne _ _ _ _ (by decide : ("3".data : Str) ≠ t2aId),
        dlookup_addTable_ne _ _ _ _ (by decide : ("2d".data : Str) ≠ t2aId),
        dlookup_addTable_ne _ _ _ _ (by decide : ("2c".data : Str) ≠ t2aId),
        dlookup_addTable_ne _ _ _ _ (by decide : ("2b".data : Str) ≠ t2aId),
        hf]
    rfl

/-- C10, witness: a non-matching page, then a matching page with zero
grids, then a matching page that does carry a grid — the finder and the
orchestrator both ignore the third page. -/
theorem claim_C10_witness :
    findTableGeneric marker2a (fun g => parseMonthlyTable g t2aId)
        ([(⟨"forside".data, []⟩ : Page)] ++
          (⟨"Tabell 2a Konsumpriser".data, []⟩ : Page) ::
          [(⟨"Tabell 2a Konsumpriser".data, [[[some "h".data]]]⟩ : Page)]) = none
    ∧ dlookup (pprParse ([(⟨"forside".data, []⟩ : Page)] ++
          (⟨"Tabell 2a Konsumpriser".data, []⟩ : Page) ::
          [(⟨"Tabell 2a Konsumpriser".data, [[[some "h".data]]]⟩ : Page)])) t2aId = none :=
  ⟨claim_C10.1 marker2a (fun g => parseMonthlyTable g t2aId) _ _ _
      (by decide) (by decide) rfl,
   claim_C10.2 _ _ _ (by decide) (by decide) rfl⟩
